import Mathlib

/-!
Verification development for the Mobile_OCR repository (Ink to Text Converter).

The repository is a browser React application.  The core modelled here:
* the JavaScript value model and `JSON.parse` (needed because the extraction
  client parses and normalizes upstream responses with JS truthiness),
* `extractContentFromImage` (src/unnamed/part_000) and `extractItemsAndRates`
  (src/services/geminiService.ts),
* the credential resolution pass `checkKey` and the failure-classification
  branch of `handleConvert` (src/App.tsx),
* `fileToBase64` and the session-storage credential store (src/utils/fileUtils.ts),
* an event-loop transition system for the conversion orchestrator (src/App.tsx).

Network calls, the DOM and browser storage are represented by explicit
parameters (the outcome of the single upstream call, the stored value, the
reader outcome); state updates become explicit record updates.
-/

/-- A JavaScript value as produced by `JSON.parse`.  Numbers are kept exactly
as `mantissa * 10 ^ exp10` (claims only ever test a number for zero, so IEEE
rounding is irrelevant here). -/
inductive JsValue where
  | null : JsValue
  | bool (b : Bool) : JsValue
  | num (mantissa : Int) (exp10 : Int) : JsValue
  | str (s : String) : JsValue
  | arr (elems : List JsValue) : JsValue
  | obj (fields : List (String × JsValue)) : JsValue

/-- JSON whitespace (space, tab, line feed, carriage return), by code point. -/
def isJsonWs (c : Char) : Bool :=
  c.toNat == 32 || c.toNat == 9 || c.toNat == 10 || c.toNat == 13

/-- Drop leading JSON whitespace. -/
def skipWs : List Char → List Char
  | [] => []
  | c :: t => if isJsonWs c then skipWs t else c :: t

/-- Hexadecimal digit value, by code point (0-9, a-f, A-F). -/
def hexVal (c : Char) : Option Nat :=
  let n := c.toNat
  if 48 ≤ n ∧ n ≤ 57 then some (n - 48)
  else if 97 ≤ n ∧ n ≤ 102 then some (n - 87)
  else if 65 ≤ n ∧ n ≤ 70 then some (n - 55)
  else none

/-- Single-character JSON string escapes (quote, backslash, slash, backspace,
form feed, line feed, carriage return, tab). -/
def escChar : Char → Option Char
  | 'n' => some (Char.ofNat 10)
  | 't' => some (Char.ofNat 9)
  | 'r' => some (Char.ofNat 13)
  | 'b' => some (Char.ofNat 8)
  | 'f' => some (Char.ofNat 12)
  | '/' => some '/'
  | '\\' => some '\\'
  | '"' => some '"'
  | _ => none

/-- Body of a JSON string, positioned after the opening quote.  Returns the
decoded characters and the input after the closing quote.  Lone-surrogate
`\uXXXX` escapes are rejected (Lean characters are Unicode scalar values). -/
def parseStringBody : Nat → List Char → Option (List Char × List Char)
  | 0, _ => none
  | _, [] => none
  | fuel + 1, c :: t =>
    if c == '"' then some ([], t)
    else if c == '\\' then
      match t with
      | 'u' :: h1 :: h2 :: h3 :: h4 :: t4 =>
        match hexVal h1, hexVal h2, hexVal h3, hexVal h4 with
        | some d1, some d2, some d3, some d4 =>
          let code := ((d1 * 16 + d2) * 16 + d3) * 16 + d4
          if 0xd800 ≤ code && code ≤ 0xdfff then none
          else
            match parseStringBody fuel t4 with
            | some (s, r) => some (Char.ofNat code :: s, r)
            | none => none
        | _, _, _, _ => none
      | e :: t2 =>
        match escChar e with
        | some ch =>
          match parseStringBody fuel t2 with
          | some (s, r) => some (ch :: s, r)
          | none => none
        | none => none
      | [] => none
    else if c.toNat < 0x20 then none
    else
      match parseStringBody fuel t with
      | some (s, r) => some (c :: s, r)
      | none => none

/-- Numeric value of a digit string. -/
def digitsVal (ds : List Char) : Nat :=
  ds.foldl (fun acc c => acc * 10 + (c.toNat - 48)) 0

/-- Fraction and exponent part of a JSON number, after the integer digits. -/
def parseFracExp (neg : Bool) (intDs : List Char) (cs : List Char) :
    Option (JsValue × List Char) :=
  let fracStep : Option (List Char × List Char) :=
    match cs with
    | '.' :: t =>
      let p := t.span (fun c => c.isDigit)
      if p.1.isEmpty then none else some (p.1, p.2)
    | _ => some ([], cs)
  match fracStep with
  | none => none
  | some (fracDs, cs2) =>
    let expStep : Option (Int × List Char) :=
      match cs2 with
      | e :: t =>
        if e == 'e' || e == 'E' then
          let signStep : Bool × List Char :=
            match t with
            | '+' :: t2 => (false, t2)
            | '-' :: t2 => (true, t2)
            | _ => (false, t)
          let p := signStep.2.span (fun c => c.isDigit)
          if p.1.isEmpty then none
          else some ((if signStep.1 then -(digitsVal p.1 : Int) else (digitsVal p.1 : Int)), p.2)
        else some ((0 : Int), cs2)
      | [] => some ((0 : Int), cs2)
    match expStep with
    | none => none
    | some (expVal, cs3) =>
      let mantNat : Nat := digitsVal (intDs ++ fracDs)
      let mant : Int := if neg then -(mantNat : Int) else (mantNat : Int)
      some (.num mant (expVal - (fracDs.length : Int)), cs3)

/-- A JSON number (sign, integer part without leading zeros, fraction, exponent). -/
def parseNumber (cs : List Char) : Option (JsValue × List Char) :=
  let signStep : Bool × List Char :=
    match cs with
    | '-' :: t => (true, t)
    | _ => (false, cs)
  match signStep.2 with
  | [] => none
  | c :: t =>
    if c == '0' then
      match t with
      | d :: _ => if d.isDigit then none else parseFracExp signStep.1 ['0'] t
      | [] => parseFracExp signStep.1 ['0'] []
    else if c.isDigit then
      let p := (c :: t).span (fun x => x.isDigit)
      parseFracExp signStep.1 p.1 p.2
    else none

mutual

/-- A JSON value with leading whitespace, returning the remaining input. -/
def parseValue : Nat → List Char → Option (JsValue × List Char)
  | 0, _ => none
  | fuel + 1, cs =>
    match skipWs cs with
    | [] => none
    | c :: t =>
      if c == '"' then
        match parseStringBody (t.length + 1) t with
        | some (chars, rest) => some (.str (String.mk chars), rest)
        | none => none
      else if c == '[' then
        match skipWs t with
        | ']' :: r => some (.arr [], r)
        | t2 => parseArrayItems fuel [] t2
      else if c == '\x7b' then
        match skipWs t with
        | '\x7d' :: r => some (.obj [], r)
        | '"' :: t2 => parseObjItems fuel [] t2
        | _ => none
      else if List.isPrefixOf "true".toList (c :: t) then some (.bool true, (c :: t).drop 4)
      else if List.isPrefixOf "false".toList (c :: t) then some (.bool false, (c :: t).drop 5)
      else if List.isPrefixOf "null".toList (c :: t) then some (.null, (c :: t).drop 4)
      else parseNumber (c :: t)

/-- Array elements, positioned at the first element. -/
def parseArrayItems : Nat → List JsValue → List Char → Option (JsValue × List Char)
  | 0, _, _ => none
  | fuel + 1, acc, cs =>
    match parseValue fuel cs with
    | none => none
    | some (v, rest) =>
      match skipWs rest with
      | ']' :: r => some (.arr (acc ++ [v]), r)
      | ',' :: r => parseArrayItems fuel (acc ++ [v]) r
      | _ => none

/-- Object members, positioned after the opening quote of a key. -/
def parseObjItems : Nat → List (String × JsValue) → List Char → Option (JsValue × List Char)
  | 0, _, _ => none
  | fuel + 1, acc, cs =>
    match parseStringBody (cs.length + 1) cs with
    | none => none
    | some (keyChars, rest) =>
      match skipWs rest with
      | ':' :: r =>
        match parseValue fuel r with
        | none => none
        | some (v, rest2) =>
          let acc2 := acc ++ [(String.mk keyChars, v)]
          match skipWs rest2 with
          | '\x7d' :: r2 => some (.obj acc2, r2)
          | ',' :: r2 =>
            match skipWs r2 with
            | '"' :: r3 => parseObjItems fuel acc2 r3
            | _ => none
          | _ => none
      | _ => none

end

/-- `JSON.parse`: parse the whole string as a single JSON value, allowing
surrounding whitespace; `none` models a thrown `SyntaxError`. -/
def jsonParse (s : String) : Option JsValue :=
  match parseValue (2 * s.length + 4) s.toList with
  | some (v, rest) =>
    match skipWs rest with
    | [] => some v
    | _ => none
  | none => none

/-- JavaScript truthiness of a `JsValue` (`null`, `false`, `0`, `""` are falsy;
objects and arrays are always truthy). -/
def JsValue.truthy : JsValue → Bool
  | .null => false
  | .bool b => b
  | .num m _ => m != 0
  | .str s => !s.isEmpty
  | .arr _ => true
  | .obj _ => true

/-- `typeof v === 'object' && v !== null`: true exactly for objects and arrays. -/
def JsValue.isObjLike : JsValue → Bool
  | .arr _ => true
  | .obj _ => true
  | _ => false

/-- Is this JS value an array? -/
def JsValue.isArr : JsValue → Bool
  | .arr _ => true
  | _ => false

/-- Is this JS value a string? -/
def JsValue.isStr : JsValue → Bool
  | .str _ => true
  | _ => false

/-- Property access `v.k`: on an object the last binding for the key wins
(`JSON.parse` duplicate-key semantics); on anything else (including arrays,
whose named property `items`/`otherText` is absent) the result is `undefined`,
modelled as `none`. -/
def jsGetField (v : JsValue) (k : String) : Option JsValue :=
  match v with
  | .obj fs => (fs.reverse.find? (fun p => p.1 == k)).map (fun p => p.2)
  | _ => none

/-- The JavaScript `x || d` defaulting idiom applied to a possibly-undefined
field: `undefined` and falsy values give the default, truthy values pass
through unchanged. -/
def jsOr (v : Option JsValue) (d : JsValue) : JsValue :=
  match v with
  | some x => if x.truthy then x else d
  | none => d

/-- Truthiness of a JS string-or-absent value (`undefined`, `null` and the
empty string are falsy). -/
def strTruthy : Option String → Bool
  | none => false
  | some s => !s.isEmpty

/-- Does the character list contain `needle` as a contiguous sublist? -/
def containsSubAux (needle : List Char) : List Char → Bool
  | [] => needle.isEmpty
  | c :: t => List.isPrefixOf needle (c :: t) || containsSubAux needle t

/-- Does `hay` contain `needle` as a substring (JS `String.prototype.includes`)? -/
def containsSubstr (hay needle : String) : Bool :=
  containsSubAux needle.toList hay.toList

/-- Characters matched by the JavaScript regex `.` (anything except the four
line terminators). -/
def jsDotChar (c : Char) : Bool :=
  c != '\n' && c != '\r' && c != '\u2028' && c != '\u2029'

/-- Search for `" not found"` preceded only by regex-`.` characters. -/
def notFoundTail : List Char → Bool
  | [] => false
  | c :: t => List.isPrefixOf " not found".toList (c :: t) || (jsDotChar c && notFoundTail t)

/-- Search the whole input for a match of `API key (.*?) not found`. -/
def apiKeyNotFoundSearch : List Char → Bool
  | [] => false
  | c :: t =>
    (List.isPrefixOf "API key ".toList (c :: t) && notFoundTail (List.drop 8 (c :: t)))
      || apiKeyNotFoundSearch t

/-- `/API key (.*?) not found/.test(msg)` (src/App.tsx, handleConvert). -/
def regexTestApiKeyNotFound (msg : String) : Bool :=
  apiKeyNotFoundSearch msg.toList

/-- The outcome of the single upstream `generateContent` call: either a
response whose `.text` is a string or absent, or a thrown error with a
message. -/
inductive NetOutcome where
  | ok (text : Option String) : NetOutcome
  | err (msg : String) : NetOutcome

/-- Classified failure of an extraction call.  The constructor records the
throw site; the `String` is the exact message of the `Error` the caller sees. -/
inductive ExtractErr where
  | credentialUnavailable (msg : String) : ExtractErr
  | emptyResponse (msg : String) : ExtractErr
  | malformedResponse (msg : String) : ExtractErr
  | upstream (msg : String) : ExtractErr

/-- The message carried by an extraction failure. -/
def ExtractErr.msg : ExtractErr → String
  | .credentialUnavailable m => m
  | .emptyResponse m => m
  | .malformedResponse m => m
  | .upstream m => m

/-- The raw (still JS-typed) record returned by `extractContentFromImage`:
`{ items: result.items || [], otherText: result.otherText || '' }`. -/
structure RawContent where
  items : JsValue
  otherText : JsValue

/-- `extractContentFromImage` (src/unnamed/part_000).  The API key is resolved
from the environment when inside the AI Studio host, otherwise from session
storage; a falsy key throws before the client is even constructed.  The second
component counts invocations of the external service.  Inside the `try`, a
thrown JSON `SyntaxError` is replaced by a fixed message; every other error
(including the locally thrown empty-response and shape errors) is rethrown
verbatim. -/
def extractContentFromImage (base64Image mimeType : String) (isAistudioEnv : Bool)
    (envKey storedKey : Option String) (net : NetOutcome) :
    Except ExtractErr RawContent × Nat :=
  let apiKey : Option String := if isAistudioEnv then envKey else storedKey
  if !strTruthy apiKey then
    (.error (.credentialUnavailable "API key is not available. Please select or enter an API key."), 0)
  else
    match net with
    | .err m => (.error (.upstream m), 1)
    | .ok text =>
      if !strTruthy text then
        (.error (.emptyResponse "The API did not return any data. The handwriting might be illegible."), 1)
      else
        match jsonParse (text.getD "") with
        | none =>
          (.error (.malformedResponse "Failed to process the AI's response. The handwriting might be illegible or in an unexpected format."), 1)
        | some result =>
          if !result.isObjLike then
            (.error (.malformedResponse "API returned an unexpected format. Please check the image and try again."), 1)
          else
            (.ok { items := jsOr (jsGetField result "items") (.arr [])
                   otherText := jsOr (jsGetField result "otherText") (.str "") }, 1)

/-- `extractItemsAndRates` (src/services/geminiService.ts).  No per-call key
check (the module throws at load time if the environment key is unset).  A
JSON `SyntaxError` is replaced by a fixed message; every other error —
including the locally thrown empty-response and non-array-shape errors — is
caught and rewrapped as `AI service error: <message>`.  On success the parsed
array is returned as-is, with no normalization. -/
def extractItemsAndRates (base64Image mimeType : String) (net : NetOutcome) :
    Except ExtractErr JsValue × Nat :=
  match net with
  | .err m => (.error (.upstream ("AI service error: " ++ m)), 1)
  | .ok text =>
    if !strTruthy text then
      (.error (.emptyResponse "AI service error: The API did not return any data. The handwriting might be illegible."), 1)
    else
      match jsonParse (text.getD "") with
      | none =>
        (.error (.malformedResponse "Failed to process the AI's response. The handwriting might be illegible or in an unexpected format."), 1)
      | some result =>
        if !result.isArr then
          (.error (.malformedResponse "AI service error: API returned an unexpected format. Please check the image and try again."), 1)
        else
          (.ok result, 1)

/-- Result of the credential resolution pass: the active key state after
`checkKey` ran to completion. -/
structure KeyCheckResult where
  activeApiKey : Option String
  isKeyReady : Bool

/-- `checkKey` (src/App.tsx, the initialization effect).  Inputs: the
environment value `process.env.API_KEY` as read at the start, whether the AI
Studio host object with its probe function is present, the probe's answer,
the environment value as re-read after the probe (AI Studio injects the
selected key there), and the session-stored value.  State starts with
`activeApiKey = null`, `isKeyReady = false` and is only written by the
branches below. -/
def checkKey (envKey : Option String) (hasAistudio : Bool) (aistudioHasKey : Bool)
    (envKeyAfterProbe : Option String) (storedKey : Option String) : KeyCheckResult :=
  if strTruthy envKey then
    { activeApiKey := envKey, isKeyReady := true }
  else if hasAistudio then
    if aistudioHasKey then
      { activeApiKey := envKeyAfterProbe, isKeyReady := true }
    else
      { activeApiKey := none, isKeyReady := false }
  else
    if strTruthy storedKey then
      { activeApiKey := storedKey, isKeyReady := true }
    else
      { activeApiKey := none, isKeyReady := false }

/-- Is the environment credential source available? -/
def envAvailable (envKey : Option String) : Bool := strTruthy envKey

/-- Is the host-runtime (AI Studio) credential source available? -/
def hostAvailable (hasAistudio aistudioHasKey : Bool) : Bool :=
  hasAistudio && aistudioHasKey

/-- Is the stored credential source available? -/
def storedAvailable (storedKey : Option String) : Bool := strTruthy storedKey

/-- Modelled from the spec (§4.2 transition rule, claim C1): attempt the
sources in fixed priority order environment → host-runtime → stored; the
first non-empty match gives READY, otherwise AWAITING_USER_INPUT.  This is
the spec-side resolver that claim C1 asserts `checkKey` implements. -/
def specResolve (envKey : Option String) (hasAistudio : Bool) (aistudioHasKey : Bool)
    (envKeyAfterProbe : Option String) (storedKey : Option String) : KeyCheckResult :=
  if envAvailable envKey then
    { activeApiKey := envKey, isKeyReady := true }
  else if hostAvailable hasAistudio aistudioHasKey then
    { activeApiKey := envKeyAfterProbe, isKeyReady := true }
  else if storedAvailable storedKey then
    { activeApiKey := storedKey, isKeyReady := true }
  else
    { activeApiKey := none, isKeyReady := false }

/-- The slice of App state touched by `handleConvert`'s catch block:
resolver readiness, the active key, the session-stored key (written through
`clearApiKey`), the generic error banner, and the credential-screen message. -/
structure OrchestratorState where
  isKeyReady : Bool
  activeApiKey : Option String
  storedKey : Option String
  error : Option String
  apiKeyError : Option String

/-- The credential-problem pattern match of `handleConvert` (src/App.tsx):
`errorMessage.includes('API key not valid') || errorMessage.includes('API key
is not available') || /API key (.*?) not found/.test(errorMessage) ||
errorMessage.includes('provide one')`. -/
def isApiKeyErrorMsg (errorMessage : String) : Bool :=
  containsSubstr errorMessage "API key not valid" ||
  containsSubstr errorMessage "API key is not available" ||
  regexTestApiKeyNotFound errorMessage ||
  containsSubstr errorMessage "provide one"

/-- The catch block of `handleConvert` (src/App.tsx): on a credential-class
message reset readiness, drop the active key, clear the stored key, clear the
generic error and show the credential-screen message; otherwise set the
generic error to the raw message. -/
def handleConvertCatch (errorMessage : String) (s : OrchestratorState) : OrchestratorState :=
  if isApiKeyErrorMsg errorMessage then
    { s with isKeyReady := false
             activeApiKey := none
             storedKey := none
             error := none
             apiKeyError := some "Your API key is invalid or missing. Please select or enter a valid key to continue." }
  else
    { s with error := some errorMessage }

/-- The catch block of `handleConvert` in the src/unnamed/part_001 variant:
only the `API key not valid` substring is matched, and the stored key is
cleared only outside the AI Studio host. -/
def handleConvertCatchVariant (errorMessage : String) (isAistudioEnv : Bool)
    (s : OrchestratorState) : OrchestratorState :=
  if containsSubstr errorMessage "API key not valid" then
    { s with isKeyReady := false
             storedKey := if isAistudioEnv then s.storedKey else none
             error := none
             apiKeyError := some "The provided API key was not valid. Please try again." }
  else
    { s with error := some errorMessage }

/-- Outcome of the `FileReader` used by `fileToBase64`: a load event whose
`result` is a string or some other value, or an error event. -/
inductive ReadEvent where
  | loadStr (result : String) : ReadEvent
  | loadOther : ReadEvent
  | errored (e : String) : ReadEvent

/-- Settled state of a JS promise. -/
inductive PromiseOutcome (α : Type) where
  | resolved (a : α) : PromiseOutcome α
  | rejected (msg : String) : PromiseOutcome α

/-- JavaScript `String.prototype.split(',')` on a character list: fields
between commas, in order, with empty fields kept (`"".split(',')` is
`[""]`). -/
def splitOnComma : List Char → List (List Char)
  | [] => [[]]
  | c :: t =>
    if c == ',' then [] :: splitOnComma t
    else
      match splitOnComma t with
      | [] => [[c]]
      | f :: rest => (c :: f) :: rest

/-- JavaScript `s.split(',')`. -/
def jsSplitComma (s : String) : List String :=
  (splitOnComma s.toList).map String.mk

/-- `fileToBase64` (src/utils/fileUtils.ts) as a function of the reader
outcome: on a string result resolve with `result.split(',')[1]` (`none`
models the `undefined` element when there is no second field); on a
non-string result reject with a fixed message; on a read error reject with
the error. -/
def fileToBase64 (ev : ReadEvent) : PromiseOutcome (Option String) :=
  match ev with
  | .loadStr result => .resolved ((jsSplitComma result).get? 1)
  | .loadOther => .rejected "Failed to read file as base64 string."
  | .errored e => .rejected e

/-- Everything after the first comma, absent when there is no comma. -/
def afterFirstCommaChars : List Char → Option (List Char)
  | [] => none
  | c :: t => if c == ',' then some t else afterFirstCommaChars t

/-- Modelled from the spec wording of claim C10: the substring of the data
URL after the first comma, absent when there is no comma. -/
def specAfterFirstComma (s : String) : Option String :=
  (afterFirstCommaChars s.toList).map String.mk

/-- An item/rate pair (the `Item` interface of the gemini service). -/
structure Item where
  item : String
  rate : String

/-- A fully-typed extraction result in the three-field variant used by
`handleConvert` in src/App.tsx. -/
structure ExtractionResult3 where
  items : List Item
  headerText : String
  footerText : String

/-- The conversion-relevant slice of App state for the orchestrator
transition system (src/App.tsx): the selected image (by identity), the
populated result fields, the loading flag, the error banner and the
in-flight conversion (the image identity it was issued for).  `pending`
models the suspended continuation of `handleConvert` between its start and
the settlement of the extraction promise. -/
structure ConvAppState where
  imageFile : Option Nat
  convertedItems : List Item
  headerText : String
  footerText : String
  isLoading : Bool
  error : Option String
  pending : Option Nat

/-- Initial App state. -/
def initConvState : ConvAppState :=
  { imageFile := none, convertedItems := [], headerText := "", footerText := ""
    isLoading := false, error := none, pending := none }

/-- `handleImageSelect` (src/App.tsx): store the new file and clear the
result fields and the error.  It does not touch `isLoading` or the in-flight
conversion, and nothing disables the uploader while a conversion is
outstanding. -/
def handleImageSelect (id : Nat) (s : ConvAppState) : ConvAppState :=
  { s with imageFile := some id, convertedItems := [], headerText := ""
           footerText := "", error := none }

/-- The Convert button's enabledness (src/App.tsx:
`disabled={isLoading || !imageFile}`). -/
def convertEnabled (s : ConvAppState) : Bool :=
  !s.isLoading && s.imageFile.isSome

/-- The synchronous prefix of `handleConvert` (src/App.tsx), run when an image
is selected and a key is active: set loading, clear error and result fields,
and issue the extraction for the currently selected image. -/
def startConvert (id : Nat) (s : ConvAppState) : ConvAppState :=
  { s with isLoading := true, error := none, convertedItems := []
           headerText := "", footerText := "", pending := some id }

/-- The continuation of `handleConvert` after the extraction promise settles:
on success adopt the result fields verbatim; on failure classify the message
(the credential branch clears the error banner, the generic branch sets it);
the `finally` clears the loading flag.  The stale result is applied
unconditionally — nothing compares the issuing image with the current one. -/
def settleConvert (outcome : Except String ExtractionResult3) (s : ConvAppState) : ConvAppState :=
  match outcome with
  | .ok r =>
    { s with convertedItems := r.items, headerText := r.headerText
             footerText := r.footerText, isLoading := false, pending := none }
  | .error m =>
    if isApiKeyErrorMsg m then
      { s with error := none, isLoading := false, pending := none }
    else
      { s with error := some m, isLoading := false, pending := none }

/-- One event-loop step of the orchestrator.  `net` gives, per image
identity, the settled outcome of its extraction call. -/
inductive ConvStep (net : Nat → Except String ExtractionResult3) :
    ConvAppState → ConvAppState → Prop where
  | select (id : Nat) (s : ConvAppState) :
      ConvStep net s (handleImageSelect id s)
  | convert (id : Nat) (s : ConvAppState) (henabled : convertEnabled s = true)
      (himg : s.imageFile = some id) :
      ConvStep net s (startConvert id s)
  | settle (id : Nat) (s : ConvAppState) (hpending : s.pending = some id) :
      ConvStep net s (settleConvert (net id) s)

/-- States reachable from the initial App state. -/
inductive ConvReachable (net : Nat → Except String ExtractionResult3) : ConvAppState → Prop where
  | init : ConvReachable net initConvState
  | step {s s' : ConvAppState} : ConvReachable net s → ConvStep net s s' → ConvReachable net s'

/-! Helper lemmas shared by the claim theorems. -/

/-- jsOr with an array default yields an array or a truthy passthrough. -/
theorem jsOr_arr_cases (v : Option JsValue) :
    (jsOr v (.arr [])).isArr = true ∨ (jsOr v (.arr [])).truthy = true := by
  match v with
  | none => exact Or.inl rfl
  | some x =>
    by_cases h : x.truthy = true
    · exact Or.inr (by simp [jsOr, h])
    · exact Or.inl (by simp [jsOr, h, JsValue.isArr])

/-- jsOr with a string default yields a string or a truthy passthrough. -/
theorem jsOr_str_cases (v : Option JsValue) :
    (jsOr v (.str "")).isStr = true ∨ (jsOr v (.str "")).truthy = true := by
  match v with
  | none => exact Or.inl rfl
  | some x =>
    by_cases h : x.truthy = true
    · exact Or.inr (by simp [jsOr, h])
    · exact Or.inl (by simp [jsOr, h, JsValue.isStr])

/-- Splitting on commas never yields an empty field list. -/
theorem splitOnComma_ne_nil (cs : List Char) : splitOnComma cs ≠ [] := by
  induction cs with
  | nil => simp [splitOnComma]
  | cons c t ih =>
    by_cases hc : c == ','
    · simp [splitOnComma, hc]
    · simp only [splitOnComma, hc, Bool.false_eq_true, if_false]
      cases hsp : splitOnComma t with
      | nil => simp
      | cons f rest => simp

/-- The first comma-field is the input up to the first comma. -/
theorem splitOnComma_head (cs : List Char) :
    (splitOnComma cs).get? 0 = some (cs.takeWhile (fun c => c != ',')) := by
  induction cs with
  | nil => rfl
  | cons c t ih =>
    by_cases hc : c == ','
    · have : c = ',' := by simpa using hc
      subst this
      simp [splitOnComma, List.takeWhile]
    · cases hsp : splitOnComma t with
      | nil => exact absurd hsp (splitOnComma_ne_nil t)
      | cons f rest =>
        rw [hsp] at ih
        simp only [List.get?] at ih
        simp only [splitOnComma, hc, Bool.false_eq_true, if_false, hsp, List.get?,
          List.takeWhile]
        have hcne : (c != ',') = true := by simpa using hc
        simp [hcne, Option.some.injEq] at ih ⊢
        exact ih

/-- The second comma-field is everything after the first comma, truncated at
the next comma. -/
theorem splitOnComma_get1 (cs : List Char) :
    (splitOnComma cs).get? 1 =
      (afterFirstCommaChars cs).map (fun t => t.takeWhile (fun c => c != ',')) := by
  induction cs with
  | nil => rfl
  | cons c t ih =>
    by_cases hc : c == ','
    · have hce : c = ',' := by simpa using hc
      subst hce
      simp only [splitOnComma, beq_self_eq_true, if_true, List.get?, afterFirstCommaChars]
      exact splitOnComma_head t
    · cases hsp : splitOnComma t with
      | nil => exact absurd hsp (splitOnComma_ne_nil t)
      | cons f rest =>
        rw [hsp] at ih
        have hcne : ¬ c = ',' := by simpa using hc
        simp only [splitOnComma, hc, Bool.false_eq_true, if_false, hsp, List.get?,
          afterFirstCommaChars, hcne]
        simpa using ih

/-- takeWhile is the identity on a list all of whose elements satisfy the
predicate. -/
theorem takeWhile_of_all (p : Char → Bool) (t : List Char) (h : ∀ c ∈ t, p c = true) :
    t.takeWhile p = t := by
  induction t with
  | nil => rfl
  | cons c r ih =>
    simp only [List.takeWhile, h c (by simp)]
    simp [ih (fun x hx => h x (by simp [hx]))]

/-! Claim theorems. -/

/-- C1 counterexample: with no environment value, the AI Studio host present
but holding no selected key, and a non-empty stored value, `checkKey` leaves
the app awaiting user input although the stored source — here the
highest-priority available source — is available, diverging from the
spec-side resolver.  This refutes the claim that the resolution pass always
selects the highest-priority available source and only awaits input when no
source is available. -/
theorem checkKey_stored_ignored_in_host_env :
    storedAvailable (some "stored-key") = true ∧
    envAvailable none = false ∧
    hostAvailable true false = false ∧
    (checkKey none true false none (some "stored-key")).isKeyReady = false ∧
    (specResolve none true false none (some "stored-key")).isKeyReady = true ∧
    checkKey none true false none (some "stored-key") ≠
      specResolve none true false none (some "stored-key") := by
  refine ⟨by decide, rfl, rfl, rfl, by decide, fun h => ?_⟩
  exact Bool.noConfusion (congrArg KeyCheckResult.isKeyReady h)

/-- C1 (amended): the resolution pass tries environment first, then — only
when the AI Studio host is detected — the host-runtime value, and — only when
the host is not detected — the stored value; a lower-priority source is never
selected when a higher-priority one is available, but inside the host
environment an available stored value is not consulted: the pass transitions
to awaiting user input instead. -/
theorem checkKey_priority_amended (envKey : Option String) (hasAistudio aistudioHasKey : Bool)
    (envKeyAfterProbe storedKey : Option String) :
    (envAvailable envKey = true →
      checkKey envKey hasAistudio aistudioHasKey envKeyAfterProbe storedKey =
        { activeApiKey := envKey, isKeyReady := true }) ∧
    (envAvailable envKey = false → hostAvailable hasAistudio aistudioHasKey = true →
      checkKey envKey hasAistudio aistudioHasKey envKeyAfterProbe storedKey =
        { activeApiKey := envKeyAfterProbe, isKeyReady := true }) ∧
    (envAvailable envKey = false → hasAistudio = true → aistudioHasKey = false →
      checkKey envKey hasAistudio aistudioHasKey envKeyAfterProbe storedKey =
        { activeApiKey := none, isKeyReady := false }) ∧
    (envAvailable envKey = false → hasAistudio = false → storedAvailable storedKey = true →
      checkKey envKey hasAistudio aistudioHasKey envKeyAfterProbe storedKey =
        { activeApiKey := storedKey, isKeyReady := true }) ∧
    (envAvailable envKey = false → hasAistudio = false → storedAvailable storedKey = false →
      checkKey envKey hasAistudio aistudioHasKey envKeyAfterProbe storedKey =
        { activeApiKey := none, isKeyReady := false }) := by
  refine ⟨?_, ?_, ?_, ?_, ?_⟩ <;>
    simp only [envAvailable, hostAvailable, storedAvailable, checkKey, Bool.and_eq_true] <;>
    intros <;> simp_all

/-- C1 witness: with an environment key present, resolution is READY on the
environment source. -/
theorem checkKey_priority_amended_witness :
    checkKey (some "env-key") false false none none =
      { activeApiKey := some "env-key", isKeyReady := true } :=
  (checkKey_priority_amended (some "env-key") false false none none).1 (by decide)

/-- C2: a failure message matching one of the four credential-problem
patterns sends the resolver to awaiting user input with the fixed user-facing
message and leaves the generic error absent; any other message is stored raw
in the error banner with resolver readiness untouched. -/
theorem handleConvert_error_classification (msg : String) (s : OrchestratorState) :
    (isApiKeyErrorMsg msg = true →
      handleConvertCatch msg s =
        { isKeyReady := false, activeApiKey := none, storedKey := none, error := none,
          apiKeyError := some "Your API key is invalid or missing. Please select or enter a valid key to continue." }) ∧
    (isApiKeyErrorMsg msg = false →
      handleConvertCatch msg s = { s with error := some msg }) := by
  constructor <;> intro h <;> simp [handleConvertCatch, h]

/-- C2 witness: the two example messages of the spec, evaluated. -/
theorem handleConvert_error_classification_witness :
    handleConvertCatch "API key not valid"
      { isKeyReady := true, activeApiKey := some "k", storedKey := some "k",
        error := none, apiKeyError := none } =
      { isKeyReady := false, activeApiKey := none, storedKey := none, error := none,
        apiKeyError := some "Your API key is invalid or missing. Please select or enter a valid key to continue." } ∧
    handleConvertCatch "Network timeout"
      { isKeyReady := true, activeApiKey := some "k", storedKey := some "k",
        error := none, apiKeyError := none } =
      { isKeyReady := true, activeApiKey := some "k", storedKey := some "k",
        error := some "Network timeout", apiKeyError := none } :=
  ⟨(handleConvert_error_classification "API key not valid" _).1 (by decide),
   (handleConvert_error_classification "Network timeout" _).2 (by decide)⟩

/-- C3 counterexample: on the credential-invalid message the stored session
value changes from `some "my-key"` to `none` — invalidation does clear the
underlying stored value, refuting the frame claim. -/
theorem invalidation_clears_stored_key :
    (handleConvertCatch "API key not valid"
      { isKeyReady := true, activeApiKey := some "my-key", storedKey := some "my-key",
        error := none, apiKeyError := none }).storedKey = none ∧
    (handleConvertCatch "API key not valid"
      { isKeyReady := true, activeApiKey := some "my-key", storedKey := some "my-key",
        error := none, apiKeyError := none }).isKeyReady = false ∧
    (some "my-key" : Option String) ≠ none := by
  refine ⟨by decide, by decide, by decide⟩

/-- C3 (amended): when the resolver is forced back to awaiting user input by a
credential-class failure, src/App.tsx always clears the stored session value,
and the src/unnamed/part_001 variant clears it exactly when outside the AI
Studio host. -/
theorem invalidation_clears_stored_amended (msg : String) (isAistudioEnv : Bool)
    (s : OrchestratorState) (h : isApiKeyErrorMsg msg = true)
    (hv : containsSubstr msg "API key not valid" = true) :
    (handleConvertCatch msg s).storedKey = none ∧
    (handleConvertCatchVariant msg isAistudioEnv s).storedKey =
      (if isAistudioEnv then s.storedKey else none) := by
  constructor
  · simp [handleConvertCatch, h]
  · simp [handleConvertCatchVariant, hv]

/-- C3 witness: the amended clearing behaviour at the invalid-key message. -/
theorem invalidation_clears_stored_amended_witness :
    (handleConvertCatch "API key not valid"
      { isKeyReady := true, activeApiKey := some "k", storedKey := some "k",
        error := none, apiKeyError := none }).storedKey = none :=
  (invalidation_clears_stored_amended "API key not valid" false _ (by decide) (by decide)).1

/-- C4: with a falsy resolved credential, `extractContentFromImage` fails with
the credential-unavailable error and the external service is never invoked
(invocation count zero), for every payload, media type and would-be network
outcome. -/
theorem extract_credential_guard (base64Image mimeType : String) (isAistudioEnv : Bool)
    (envKey storedKey : Option String) (net : NetOutcome)
    (hkey : strTruthy (if isAistudioEnv then envKey else storedKey) = false) :
    extractContentFromImage base64Image mimeType isAistudioEnv envKey storedKey net =
      (.error (.credentialUnavailable "API key is not available. Please select or enter an API key."), 0) := by
  unfold extractContentFromImage
  simp [hkey]

/-- C4 witness: outside the host, with no stored key, the guard fires. -/
theorem extract_credential_guard_witness :
    extractContentFromImage "aW1n" "image/png" false (some "env") none (.ok (some "data")) =
      (.error (.credentialUnavailable "API key is not available. Please select or enter an API key."), 0) :=
  extract_credential_guard "aW1n" "image/png" false (some "env") none (.ok (some "data")) (by decide)

/-- C5: with a credential present, an empty or absent response text fails with
the empty-response error (whose message mentions the handwriting might be
illegible); unparseable text fails with the malformed-response error; parsed
text whose top-level value is not an object or array fails with the
malformed-response error under a distinct message. -/
theorem extract_response_classification (base64Image mimeType : String) (isAistudioEnv : Bool)
    (envKey storedKey : Option String)
    (hkey : strTruthy (if isAistudioEnv then envKey else storedKey) = true) :
    (∀ text : Option String, strTruthy text = false →
      extractContentFromImage base64Image mimeType isAistudioEnv envKey storedKey (.ok text) =
        (.error (.emptyResponse "The API did not return any data. The handwriting might be illegible."), 1)) ∧
    containsSubstr "The API did not return any data. The handwriting might be illegible."
      "handwriting might be illegible" = true ∧
    (∀ t : String, strTruthy (some t) = true → jsonParse t = none →
      extractContentFromImage base64Image mimeType isAistudioEnv envKey storedKey (.ok (some t)) =
        (.error (.malformedResponse "Failed to process the AI's response. The handwriting might be illegible or in an unexpected format."), 1)) ∧
    (∀ (t : String) (v : JsValue), strTruthy (some t) = true → jsonParse t = some v →
        v.isObjLike = false →
      extractContentFromImage base64Image mimeType isAistudioEnv envKey storedKey (.ok (some t)) =
        (.error (.malformedResponse "API returned an unexpected format. Please check the image and try again."), 1)) ∧
    ("Failed to process the AI's response. The handwriting might be illegible or in an unexpected format." ≠
      "API returned an unexpected format. Please check the image and try again.") := by
  refine ⟨?_, by decide, ?_, ?_, by decide⟩
  · intro text htext
    unfold extractContentFromImage
    simp [hkey, htext]
  · intro t ht hparse
    unfold extractContentFromImage
    simp [hkey, ht, hparse]
  · intro t v ht hparse hshape
    unfold extractContentFromImage
    simp [hkey, ht, hparse, hshape]

/-- C5 witness: the unparseable response `not json` and the absent response,
evaluated. -/
theorem extract_response_classification_witness :
    extractContentFromImage "aW1n" "image/png" false none (some "k") (.ok (some "not json")) =
      (.error (.malformedResponse "Failed to process the AI's response. The handwriting might be illegible or in an unexpected format."), 1) ∧
    extractContentFromImage "aW1n" "image/png" false none (some "k") (.ok none) =
      (.error (.emptyResponse "The API did not return any data. The handwriting might be illegible."), 1) :=
  ⟨(extract_response_classification "aW1n" "image/png" false none (some "k") (by decide)).2.2.1
      "not json" (by decide) (by rfl),
   (extract_response_classification "aW1n" "image/png" false none (some "k") (by decide)).1 none rfl⟩

/-- C6: on the response text with null `items` and null `otherText`,
extraction succeeds with the empty array and the empty string; in general a
success adopts `field || default` for both fields, so an absent or null
`items` becomes the empty array and an absent or null `otherText` becomes the
empty string. -/
theorem extract_null_fields_coerced (base64Image mimeType : String) (isAistudioEnv : Bool)
    (envKey storedKey : Option String)
    (hkey : strTruthy (if isAistudioEnv then envKey else storedKey) = true) :
    extractContentFromImage base64Image mimeType isAistudioEnv envKey storedKey
        (.ok (some "\x7b\"items\":null,\"otherText\":null\x7d")) =
      (.ok { items := .arr [], otherText := .str "" }, 1) ∧
    (∀ (t : String) (v : JsValue), strTruthy (some t) = true → jsonParse t = some v →
        v.isObjLike = true →
      extractContentFromImage base64Image mimeType isAistudioEnv envKey storedKey (.ok (some t)) =
        (.ok { items := jsOr (jsGetField v "items") (.arr [])
               otherText := jsOr (jsGetField v "otherText") (.str "") }, 1)) ∧
    (∀ v : JsValue, jsGetField v "items" = none ∨ jsGetField v "items" = some .null →
      jsOr (jsGetField v "items") (.arr []) = .arr []) ∧
    (∀ v : JsValue, jsGetField v "otherText" = none ∨ jsGetField v "otherText" = some .null →
      jsOr (jsGetField v "otherText") (.str "") = .str "") := by
  refine ⟨?_, ?_, ?_, ?_⟩
  · unfold extractContentFromImage
    simp [hkey]
    rfl
  · intro t v ht hparse hshape
    unfold extractContentFromImage
    simp [hkey, ht, hparse, hshape]
  · intro v h
    rcases h with h | h <;> simp [jsOr, h, JsValue.truthy]
  · intro v h
    rcases h with h | h <;> simp [jsOr, h, JsValue.truthy]

/-- C6 witness: the concrete null-fields response, evaluated. -/
theorem extract_null_fields_coerced_witness :
    extractContentFromImage "aW1n" "image/png" false none (some "k")
        (.ok (some "\x7b\"items\":null,\"otherText\":null\x7d")) =
      (.ok { items := .arr [], otherText := .str "" }, 1) :=
  (extract_null_fields_coerced "aW1n" "image/png" false none (some "k") (by decide)).1

/-- C7 counterexample: the response with a truthy non-array `items` field
(the number 5) succeeds and the returned `items` is not an array — the result
is not fully normalized, refuting the invariant as stated. -/
theorem extract_truthy_nonarray_passthrough :
    extractContentFromImage "aW1n" "image/png" false none (some "k")
        (.ok (some "\x7b\"items\":5,\"otherText\":\"x\"\x7d")) =
      (.ok { items := .num 5 0, otherText := .str "x" }, 1) ∧
    (JsValue.num 5 0).isArr = false := by
  exact ⟨rfl, rfl⟩

/-- C7 (amended): every successful extraction result has each field equal to
either the coerced default (so `items` an array, `otherText` a string) or a
truthy upstream value passed through verbatim; full normalization therefore
holds exactly when truthy upstream fields already have the declared types. -/
theorem extract_normalization_amended (base64Image mimeType : String) (isAistudioEnv : Bool)
    (envKey storedKey : Option String) (net : NetOutcome) (r : RawContent) (n : Nat)
    (h : extractContentFromImage base64Image mimeType isAistudioEnv envKey storedKey net = (.ok r, n)) :
    (r.items.isArr = true ∨ r.items.truthy = true) ∧
    (r.otherText.isStr = true ∨ r.otherText.truthy = true) := by
  by_cases hkey : strTruthy (if isAistudioEnv then envKey else storedKey) = true
  · cases net with
    | err m =>
      unfold extractContentFromImage at h
      simp [hkey] at h
    | ok text =>
      by_cases ht : strTruthy text = true
      · cases hp : jsonParse (text.getD "") with
        | none =>
          unfold extractContentFromImage at h
          simp [hkey, ht, hp] at h
        | some v =>
          by_cases hs : v.isObjLike = true
          · unfold extractContentFromImage at h
            simp only [hkey, ht, hp, hs, Bool.not_true, if_false, if_neg, Bool.false_eq_true,
              not_false_eq_true, Prod.mk.injEq, Except.ok.injEq] at h
            obtain ⟨h1, -⟩ := h
            subst h1
            exact ⟨jsOr_arr_cases _, jsOr_str_cases _⟩
          · unfold extractContentFromImage at h
            simp [hkey, ht, hp, hs] at h
      · unfold extractContentFromImage at h
        simp [hkey, ht] at h
  · unfold extractContentFromImage at h
    simp [hkey] at h

/-- C7 witness: the amended guarantee at the null-fields response. -/
theorem extract_normalization_amended_witness :
    ((({ items := .arr [], otherText := .str "" } : RawContent).items.isArr = true ∨
      ({ items := .arr [], otherText := .str "" } : RawContent).items.truthy = true)) ∧
    ((({ items := .arr [], otherText := .str "" } : RawContent).otherText.isStr = true ∨
      ({ items := .arr [], otherText := .str "" } : RawContent).otherText.truthy = true)) :=
  extract_normalization_amended "aW1n" "image/png" false none (some "k")
    (.ok (some "\x7b\"items\":null,\"otherText\":null\x7d"))
    { items := .arr [], otherText := .str "" } 1 (by rfl)

/-- C8 counterexample: `extractItemsAndRates` rewraps a network-layer error
message with the `AI service error: ` prefix, so the message is not
propagated verbatim. -/
theorem upstream_message_wrapped :
    extractItemsAndRates "aW1n" "image/png" (.err "Network timeout") =
      (.error (.upstream "AI service error: Network timeout"), 1) ∧
    ("AI service error: Network timeout" : String) ≠ "Network timeout" := by
  exact ⟨rfl, by decide⟩

/-- C8 (amended): `extractContentFromImage` propagates network-layer errors
verbatim while `extractItemsAndRates` wraps them with the `AI service error: `
prefix; in both functions the external service is invoked exactly once per
call (given a present credential in the first), with no retry for any
outcome. -/
theorem upstream_propagation_amended (base64Image mimeType : String) (isAistudioEnv : Bool)
    (envKey storedKey : Option String) (m : String) (net : NetOutcome)
    (hkey : strTruthy (if isAistudioEnv then envKey else storedKey) = true) :
    extractContentFromImage base64Image mimeType isAistudioEnv envKey storedKey (.err m) =
      (.error (.upstream m), 1) ∧
    extractItemsAndRates base64Image mimeType (.err m) =
      (.error (.upstream ("AI service error: " ++ m)), 1) ∧
    (extractContentFromImage base64Image mimeType isAistudioEnv envKey storedKey net).2 = 1 ∧
    (extractItemsAndRates base64Image mimeType net).2 = 1 := by
  refine ⟨?_, rfl, ?_, ?_⟩
  · unfold extractContentFromImage
    simp [hkey]
  · unfold extractContentFromImage
    simp only [hkey]
    cases net with
    | err m => rfl
    | ok text =>
      by_cases ht : strTruthy text = true
      · simp only [ht]
        cases hp : jsonParse (text.getD "") with
        | none => rfl
        | some v =>
          by_cases hs : v.isObjLike = true <;> simp [hp, hs]
      · simp [ht]
  · cases net with
    | err m => rfl
    | ok text =>
      unfold extractItemsAndRates
      by_cases ht : strTruthy text = true
      · simp only [ht]
        cases hp : jsonParse (text.getD "") with
        | none => rfl
        | some v =>
          by_cases hs : v.isArr = true <;> simp [hp, hs]
      · simp [ht]

/-- C8 witness: verbatim propagation through `extractContentFromImage` at a
concrete message. -/
theorem upstream_propagation_amended_witness :
    extractContentFromImage "aW1n" "image/png" false none (some "k") (.err "boom") =
      (.error (.upstream "boom"), 1) :=
  (upstream_propagation_amended "aW1n" "image/png" false none (some "k") "boom"
    (.ok none) (by decide)).1

/-- The extraction outcomes used in the stale-result scenario: image 0
extracts to a non-empty result, every other image to the empty result. -/
def staleNet : Nat → Except String ExtractionResult3
  | 0 => .ok { items := [{ item := "Screen Repair", rate := "2500" }]
               headerText := "old header", footerText := "old footer" }
  | _ => .ok { items := [], headerText := "", footerText := "" }

/-- The state reached by: select image 0, start its conversion, select image 1
while the conversion is outstanding, then let the stale extraction settle. -/
def staleState : ConvAppState :=
  settleConvert (staleNet 0)
    (handleImageSelect 1 (startConvert 0 (handleImageSelect 0 initConvState)))

/-- C9 counterexample: an interleaving of the event loop — select image 0,
start its conversion, select image 1 while that conversion is outstanding,
let the extraction settle — reaches a state in which image 1 is the selected
image yet the conversion state holds the items and header issued for image 0
(image 1's own extraction would have been empty).  The stale result does
populate the conversion state for the new image, refuting the race-safety
claim. -/
theorem stale_result_populates_new_image :
    ConvReachable staleNet staleState ∧
    staleState.imageFile = some 1 ∧
    staleState.pending = none ∧
    staleState.convertedItems = [{ item := "Screen Repair", rate := "2500" }] ∧
    staleState.headerText = "old header" ∧
    staleNet 1 = .ok { items := [], headerText := "", footerText := "" } := by
  refine ⟨?_, rfl, rfl, rfl, rfl, rfl⟩
  have h0 : ConvReachable staleNet (handleImageSelect 0 initConvState) :=
    .step .init (.select 0 _)
  have h1 : ConvReachable staleNet (startConvert 0 (handleImageSelect 0 initConvState)) :=
    .step h0 (.convert 0 _ rfl rfl)
  have h2 : ConvReachable staleNet
      (handleImageSelect 1 (startConvert 0 (handleImageSelect 0 initConvState))) :=
    .step h1 (.select 1 _)
  exact .step h2 (.settle 0 _ rfl)

/-- C9 (amended): in every reachable state the loading flag equals the
presence of an outstanding conversion, so a second conversion can never start
while one is outstanding (the convert trigger is disabled); image selection,
however, stays enabled, and in-flight extractions are not associated with
their image, so a stale result can populate the state for a newly selected
image. -/
theorem conversion_serialized (net : Nat → Except String ExtractionResult3)
    (s : ConvAppState) (h : ConvReachable net s) :
    s.isLoading = s.pending.isSome ∧
    (s.pending.isSome = true → convertEnabled s = false) := by
  have hinv : s.isLoading = s.pending.isSome := by
    induction h with
    | init => rfl
    | step hr hs ih =>
      cases hs with
      | select id s => simpa [handleImageSelect] using ih
      | convert id s henabled himg => simp [startConvert]
      | settle id s hpending =>
        cases hnet : net id with
        | ok r => simp [settleConvert, hnet]
        | error m =>
          by_cases hm : isApiKeyErrorMsg m = true <;> simp [settleConvert, hnet, hm]
  refine ⟨hinv, fun hp => ?_⟩
  simp [convertEnabled, hinv, hp]

/-- C9 witness: the invariant at the initial state. -/
theorem conversion_serialized_witness :
    initConvState.isLoading = initConvState.pending.isSome ∧
    (initConvState.pending.isSome = true → convertEnabled initConvState = false) :=
  conversion_serialized staleNet initConvState .init

/-- C10 counterexample: on a data URL with two commas the promise resolves
with the segment between the first and second commas, not with the whole
substring after the first comma. -/
theorem fileToBase64_second_field :
    fileToBase64 (.loadStr "data:,Hello,World") = .resolved (some "Hello") ∧
    specAfterFirstComma "data:,Hello,World" = some "Hello,World" ∧
    (some "Hello" : Option String) ≠ some "Hello,World" := by
  refine ⟨rfl, rfl, by decide⟩

/-- C10 (amended): on a string reader result the promise resolves with the
second comma-field — everything after the first comma truncated at the next
comma — which equals the substring after the first comma whenever at most one
comma occurs; with no comma it resolves with the absent value rather than
rejecting; it rejects exactly on a non-string reader result (fixed message)
or a read error (the error itself). -/
theorem fileToBase64_amended (s e : String) :
    fileToBase64 (.loadStr s) = .resolved ((jsSplitComma s).get? 1) ∧
    ((jsSplitComma s).get? 1 =
      (afterFirstCommaChars s.toList).map (fun t => String.mk (t.takeWhile (fun c => c != ',')))) ∧
    (afterFirstCommaChars s.toList = none → fileToBase64 (.loadStr s) = .resolved none) ∧
    (∀ t : List Char, afterFirstCommaChars s.toList = some t → (∀ c ∈ t, ¬ c = ',') →
      fileToBase64 (.loadStr s) = .resolved (specAfterFirstComma s)) ∧
    fileToBase64 .loadOther = .rejected "Failed to read file as base64 string." ∧
    fileToBase64 (.errored e) = .rejected e := by
  have hkey : (jsSplitComma s).get? 1 =
      (afterFirstCommaChars s.toList).map (fun t => String.mk (t.takeWhile (fun c => c != ','))) := by
    unfold jsSplitComma
    rw [List.get?_map, splitOnComma_get1]
    cases afterFirstCommaChars s.toList <;> simp
  refine ⟨rfl, hkey, ?_, ?_, rfl, rfl⟩
  · intro hnone
    show PromiseOutcome.resolved ((jsSplitComma s).get? 1) = .resolved none
    rw [hkey, hnone]
    rfl
  · intro t ht hfree
    show PromiseOutcome.resolved ((jsSplitComma s).get? 1) = .resolved (specAfterFirstComma s)
    rw [hkey, ht]
    unfold specAfterFirstComma
    rw [ht]
    simp [takeWhile_of_all (fun c => c != ',') t (fun c hc => by simpa [bne_iff_ne] using hfree c hc)]

/-- C10 witness: a one-comma data URL resolves with the substring after the
first comma; a comma-free string resolves with the absent value. -/
theorem fileToBase64_amended_witness :
    fileToBase64 (.loadStr "data:image/png;base64,iVBORw0KGgo") =
      .resolved (specAfterFirstComma "data:image/png;base64,iVBORw0KGgo") ∧
    fileToBase64 (.loadStr "nocomma") = .resolved none :=
  ⟨(fileToBase64_amended "data:image/png;base64,iVBORw0KGgo" "e").2.2.2.1
      "iVBORw0KGgo".toList (by rfl) (by decide),
   (fileToBase64_amended "nocomma" "e").2.2.1 (by rfl)⟩
